import Mathlib

/-!
Travel-Planner consistency-maintenance logic: a shallow embedding.

This file embeds the core logic of the Travel-Planner repository
(`core/models.py`, `core/serializers.py`, `core/services.py`,
`core/views.py`) as executable Lean definitions, and proves or refutes
the frozen claims about it.

Layer 1 models `core/services.py` (`validate_and_fetch_artwork`): the
artwork lookup with its key-value cache, JSON dictionaries as
association lists, and the external HTTP call as an explicit outcome
parameter.

Layer 2 models the database-backed operations of `core/views.py` and
`core/serializers.py`: projects and places as rows, place creation /
update / deletion, project creation (with inline places) and deletion.
-/

/-! Section: Layer 1: JSON values and dictionaries (`core/services.py`) -/

/-- A JSON-ish value as it appears in the artwork API responses:
`None`, an integer, or a string. -/
inductive JVal where
  | jnull : JVal
  | jint (n : Int) : JVal
  | jstr (s : String) : JVal
deriving Repr, DecidableEq

/-- A Python dict with string keys, as an association list
(first binding wins, like the dicts built in `services.py`). -/
def Dict := List (String × JVal)
deriving DecidableEq, Repr

/-- Python `d.get(k)`, returning `None` (here `none`) when the key is absent. -/
def dictGet (d : Dict) (k : String) : Option JVal :=
  (List.find? (fun e => e.1 == k) d).map (·.2)

/-- Python `d.get(k, default)`. -/
def dictGetD (d : Dict) (k : String) (v : JVal) : JVal :=
  (dictGet d k).getD v

/-- Python truthiness of a dict: non-empty. -/
def dictTruthy (d : Dict) : Bool :=
  !(List.isEmpty d)

/-! Section: Layer 1: the Django cache (`django.core.cache`) -/

/-- The process-wide key-value cache: key, stored dict, absolute expiry
timestamp (seconds).  `cache.set(key, value, timeout=t)` at time `now`
stores expiry `now + t`; an entry is readable while `now < expiry`. -/
def CacheState := List (String × Dict × Nat)
deriving DecidableEq

/-- The empty cache. -/
def CacheState.empty : CacheState := []

/-- Model of `cache.get(key)`: at time `now`: the stored value if present and not
expired, else `None`. -/
def cacheGet (c : CacheState) (now : Nat) (k : String) : Option Dict :=
  match List.find? (fun e => e.1 == k) c with
  | some (_, v, exp) => if now < exp then some v else none
  | none => none

/-- Model of `cache.set(key, value, timeout=ttl)` at time `now`. -/
def cacheSet (c : CacheState) (now : Nat) (k : String) (v : Dict) (ttl : Nat) : CacheState :=
  (k, v, now + ttl) :: List.filter (fun e => !(e.1 == k)) c

/-- The expiry timestamp currently recorded for key `k`, if any. -/
def cacheExpiry (c : CacheState) (k : String) : Option Nat :=
  (List.find? (fun e => e.1 == k) c).map (fun e => e.2.2)

/-! Section: Layer 1: the external catalog call -/

/-- The observable outcome of `requests.get(url, timeout=5)` together
with `response.json()` and the subsequent attribute accesses:
* `success data` — status 200, the body parses to a JSON object, and
  its `data` member is itself an object (or is absent, defaulting to
  `{}`); `data` is `response.json().get('data', {})`;
* `successNonObjectBody` — status 200 but the body parses to a
  non-object JSON value (`null`, a list, a string, a number, a bool):
  `response.json().get(...)` raises `AttributeError`;
* `successNonDictData` — status 200, the body parses to an object, but
  its `data` member is present and not a dict (e.g. `null`, a list):
  `data.get('id')` raises `AttributeError`;
* `successBadJson` — status 200 but `response.json()` raises
  (`requests.exceptions.JSONDecodeError`, a `RequestException`
  subclass, so it is caught by the `except` clause);
* `notFound` — status 404;
* `otherStatus code` — any other status code (falls through to the
  final `return None`);
* `requestException` — network failure or timeout
  (`requests.RequestException`). -/
inductive HttpOutcome where
  | success (data : Dict) : HttpOutcome
  | successNonObjectBody : HttpOutcome
  | successNonDictData : HttpOutcome
  | successBadJson : HttpOutcome
  | notFound : HttpOutcome
  | otherStatus (code : Nat) : HttpOutcome
  | requestException : HttpOutcome
deriving Repr, DecidableEq

/-- What the caller of the lookup observes: either the function
returns a value (a record, or `None` on a handled failure), or an
uncaught Python exception escapes it — `AttributeError` is not a
`requests.RequestException`, so the `except` clause does not catch
it. -/
inductive LookupOutcome where
  | returns (r : Option Dict) : LookupOutcome
  | raises (exc : String) : LookupOutcome
deriving Repr, DecidableEq

/-- The cache key `f"artwork_{artwork_id}"`. -/
def artworkKey (artwork_id : Int) : String :=
  "artwork_" ++ toString artwork_id

/-- The record `services.py` builds from a 200 response:
`{'id': data.get('id'), 'title': data.get('title', 'Unknown Title')}`. -/
def artworkRecordOf (data : Dict) : Dict :=
  [("id", dictGetD data "id" JVal.jnull),
   ("title", dictGetD data "title" (JVal.jstr "Unknown Title"))]

/-- Model of `core/services.py::validate_and_fetch_artwork`.

Inputs: the outcome the external call would have (`fetch`), the cache
state, the current time, and the artwork id.  Returns what the caller
observes (a returned `Option Dict`, or an escaping exception), the new
cache state, and the number of external calls performed (0 or 1).
The two `AttributeError` outcomes happen before `cache.set`, so the
cache is left untouched by them. -/
def validate_and_fetch_artwork (fetch : HttpOutcome) (c : CacheState) (now : Nat)
    (artwork_id : Int) : LookupOutcome × CacheState × Nat :=
  let key := artworkKey artwork_id
  -- 1. check cache first (`if cached_data:` — Python truthiness)
  match cacheGet c now key with
  | some cached =>
    if dictTruthy cached then (LookupOutcome.returns (some cached), c, 0)
    else externalCall key
  | none => externalCall key
where
  /-- Step 2: if not in cache, call external API. -/
  externalCall (key : String) : LookupOutcome × CacheState × Nat :=
    match fetch with
    | HttpOutcome.success data =>
      let result := artworkRecordOf data
      -- saving cache for 24 hours (86400 seconds)
      (LookupOutcome.returns (some result), cacheSet c now key result 86400, 1)
    | HttpOutcome.successNonObjectBody => (LookupOutcome.raises "AttributeError", c, 1)
    | HttpOutcome.successNonDictData => (LookupOutcome.raises "AttributeError", c, 1)
    | HttpOutcome.successBadJson => (LookupOutcome.returns none, c, 1)
    | HttpOutcome.notFound => (LookupOutcome.returns none, c, 1)
    | HttpOutcome.otherStatus _ => (LookupOutcome.returns none, c, 1)
    | HttpOutcome.requestException => (LookupOutcome.returns none, c, 1)

/-! Section: Layer 2: rows and database state (`core/models.py`) -/

/-- An artwork record as consumed by the views/serializers layer
(`artwork_data['title']`, `artwork_data.get('image_id')`,
`artwork_data.get('id')`).  This is the shape of the records the test
suite's mock lookup returns; `core/services.py` itself never populates
`image_id` (see the claim about the lookup record's keys). -/
structure ArtRec where
  id : Option Int := none
  title : String
  image_id : Option String := none
deriving Repr, DecidableEq

/-- A row of the `Place` table (`core/models.py::Place`), minus the
auto primary key, which is the association key in `DB.places`. -/
structure PlaceRow where
  project_id : Nat
  artwork_id : Int
  title : String
  image_id : Option String
  notes : String
  visited : Bool
deriving Repr, DecidableEq

/-- A row of the `Project` table (`core/models.py::Project`), minus the
auto primary key. -/
structure ProjectRow where
  name : String
  description : Option String := none
  is_completed : Bool := false
deriving Repr, DecidableEq

/-- The persisted state: both tables plus the auto-increment counters. -/
structure DB where
  projects : List (Nat × ProjectRow)
  places : List (Nat × PlaceRow)
  nextProjectId : Nat
  nextPlaceId : Nat
deriving Repr, DecidableEq

/-- The empty database. -/
def DB.empty : DB := ⟨[], [], 0, 0⟩

/-- Model of `project.places.all()`: the places owned by project `pid`
(`related_name='places'`, i.e. `Place.objects.filter(project=project)`). -/
def placesOf (db : DB) (pid : Nat) : List (Nat × PlaceRow) :=
  List.filter (fun r => r.2.project_id == pid) db.places

/-- Model of `Project.objects.get(pk=pid)`, as an `Option`. -/
def findProject (db : DB) (pid : Nat) : Option ProjectRow :=
  (List.find? (fun p => p.1 == pid) db.projects).map (·.2)

/-- The completion evaluator inlined in `PlaceViewSet.perform_update`
and `PlaceViewSet.destroy`:
`all_places.exists() and all(p.visited for p in all_places)`. -/
def evaluateCompletion (ps : List PlaceRow) : Bool :=
  !(List.isEmpty ps) && List.all ps (·.visited)

/-- Write `is_completed := b` on project `pid` (`project.save()`). -/
def setCompleted (db : DB) (pid : Nat) (b : Bool) : DB :=
  let f : (Nat × ProjectRow) → (Nat × ProjectRow) := fun q =>
    if q.1 == pid then (q.1, { q.2 with is_completed := b }) else q
  { db with projects := List.map f db.projects }

/-- The machine-distinguishable rejection kinds of the API
(cf. the error responses in `core/views.py`). -/
inductive ApiErr where
  | notFound : ApiErr
  | limitExceeded : ApiErr
  | missingField : ApiErr
  | duplicateArtwork : ApiErr
  | invalidArtwork : ApiErr
  | conflict : ApiErr
deriving Repr, DecidableEq

/-! Section: Layer 2: place operations (`core/views.py::PlaceViewSet`) -/

/-- Model of `PlaceViewSet.create`: add a place to an existing project.

`lk` abstracts `validate_and_fetch_artwork` as the views consume it
(exactly how the test suite mocks it).  Returns the created `(id, row)`
or the error, together with the resulting database: on every error
branch the view returns a `Response` without writing, so the database
comes back unchanged. -/
def addPlace (db : DB) (pid : Nat) (lk : Int → Option ArtRec)
    (artwork_id : Option Int) (notes : Option String) :
    Except ApiErr (Nat × PlaceRow) × DB :=
  match findProject db pid with
  | none => (Except.error ApiErr.notFound, db)
  | some _ =>
    -- maximum of 10 places per project
    if 10 ≤ (placesOf db pid).length then (Except.error ApiErr.limitExceeded, db)
    else match artwork_id with
    | none => (Except.error ApiErr.missingField, db)  -- artwork_id is required
    | some a =>
      -- check for duplicate artwork in this project
      if List.any (placesOf db pid) (fun r => r.2.artwork_id == a) then
        (Except.error ApiErr.duplicateArtwork, db)
      else match lk a with
      | none => (Except.error ApiErr.invalidArtwork, db)
      | some rec =>
        let row : PlaceRow :=
          { project_id := pid, artwork_id := a, title := rec.title,
            image_id := rec.image_id, notes := notes.getD "", visited := false }
        (Except.ok (db.nextPlaceId, row),
         { db with places := db.places ++ [(db.nextPlaceId, row)],
                   nextPlaceId := db.nextPlaceId + 1 })

/-- A PATCH payload for a place.  `PlaceUpdateSerializer` lists all six
fields but marks `id`, `artwork_id`, `title`, `image_id` read-only. -/
structure UpdatePayload where
  artwork_id : Option Int := none
  title : Option String := none
  image_id : Option String := none
  notes : Option String := none
  visited : Option Bool := none
deriving Repr, DecidableEq

/-- Model of `serializer.save()` under `PlaceUpdateSerializer`: only `notes` and
`visited` are writable; supplied values for the read-only fields are
silently dropped by the serializer, not an error. -/
def applyUpdate (row : PlaceRow) (p : UpdatePayload) : PlaceRow :=
  { row with notes := (p.notes).getD row.notes,
             visited := (p.visited).getD row.visited }

/-- Model of the `PlaceViewSet` update action (`perform_update`): resolve the place inside
the project-scoped queryset, apply the payload, then recompute and
persist the owning project's completion flag. -/
def updatePlace (db : DB) (pid place_id : Nat) (p : UpdatePayload) :
    Except ApiErr PlaceRow × DB :=
  match List.find? (fun r => r.1 == place_id) (placesOf db pid) with
  | none => (Except.error ApiErr.notFound, db)
  | some (_, row) =>
    let row' := applyUpdate row p
    let db1 : DB :=
      { db with places :=
          List.map (fun r => if r.1 == place_id then (r.1, row') else r) db.places }
    let completed := evaluateCompletion (List.map (·.2) (placesOf db1 pid))
    (Except.ok row', setCompleted db1 pid completed)

/-- Model of `PlaceViewSet.destroy`: delete the place, then recompute and
persist the owning project's completion flag.  No guard on `visited`. -/
def deletePlace (db : DB) (pid place_id : Nat) :
    Except ApiErr Unit × DB :=
  match List.find? (fun r => r.1 == place_id) (placesOf db pid) with
  | none => (Except.error ApiErr.notFound, db)
  | some _ =>
    let db1 : DB :=
      { db with places := List.filter (fun r => !(r.1 == place_id)) db.places }
    let completed := evaluateCompletion (List.map (·.2) (placesOf db1 pid))
    (Except.ok (), setCompleted db1 pid completed)

/-! Section: Layer 2: project operations (`core/views.py::ProjectViewSet`,
`core/serializers.py::ProjectSerializer`) -/

/-- Model of `ProjectViewSet.destroy`: refuse if any owned place is visited,
otherwise delete the project; `on_delete=CASCADE` removes its places. -/
def deleteProject (db : DB) (pid : Nat) : Except ApiErr Unit × DB :=
  match findProject db pid with
  | none => (Except.error ApiErr.notFound, db)
  | some _ =>
    -- checking for visited places
    if List.any (placesOf db pid) (fun r => r.2.visited) then
      (Except.error ApiErr.conflict, db)
    else
      (Except.ok (),
       { db with projects := List.filter (fun q => !(q.1 == pid)) db.projects,
                 places := List.filter (fun r => !(r.2.project_id == pid)) db.places })

/-! Section: Layer 2: project creation with inline places
(`core/serializers.py::ProjectSerializer`, `PlaceSerializer`) -/

/-- One entry of the inline `places` array of a project-create request.
`PlaceSerializer` requires `artwork_id`; `notes` and `visited` are
writable and default to `''` / `False`; `title` and `image_id` are
read-only, so they never reach the validated data. -/
structure InlineEntry where
  artwork_id : Int
  notes : String := ""
  visited : Bool := false
deriving Repr, DecidableEq

/-- Model of `PlaceSerializer.validate_artwork_id`: raises a `ValidationError`
(rejecting the whole request) when the lookup yields nothing. -/
def validate_artwork_id (lk : Int → Option ArtRec) (value : Int) : Except String Int :=
  match lk value with
  | none => Except.error ("Artwork with ID " ++ toString value ++
      " does not exist in the Art Institute API.")
  | some _ => Except.ok value

/-- Model of `ProjectSerializer.validate_places`: at most 10 entries, and the
duplicate check `len(artwork_ids) != len(set(artwork_ids))`. -/
def validate_places (entries : List InlineEntry) : Except String (List InlineEntry) :=
  if 10 < entries.length then
    Except.error "A project can have a maximum of 10 places."
  else if (List.map (·.artwork_id) entries).dedup.length ≠
      (List.map (·.artwork_id) entries).length then
    Except.error "Duplicate artwork IDs found in the request."
  else Except.ok entries

/-- The place row `ProjectSerializer.create` persists for one inline
entry: a second lookup (`lkC`) is performed, and an entry whose lookup
now fails is still created, with the fallback title `'Unknown Title'`
and `image_id = None`. -/
def inlinePlaceRow (lkC : Int → Option ArtRec) (pid : Nat) (e : InlineEntry) : PlaceRow :=
  match lkC e.artwork_id with
  | some rec =>
    { project_id := pid, artwork_id := e.artwork_id, title := rec.title,
      image_id := rec.image_id, notes := e.notes, visited := e.visited }
  | none =>
    { project_id := pid, artwork_id := e.artwork_id, title := "Unknown Title",
      image_id := none, notes := e.notes, visited := e.visited }

/-- The full project-create pipeline, DRF order:
1. `to_internal_value` runs the nested `PlaceSerializer` on every
   entry, which runs `validate_artwork_id` with the lookup as it is at
   validation time (`lkV`) — any failure rejects the whole request;
2. `validate_places` checks the cap and in-request duplicates;
3. `ProjectSerializer.create` persists the project (`is_completed` is
   read-only, so it takes its model default `False`), then persists one
   place per entry via a second lookup (`lkC`), with the
   `'Unknown Title'` fallback on lookup failure.
Returns the new project id or the validation error, with the database
(unchanged on rejection). -/
def createProject (db : DB) (lkV lkC : Int → Option ArtRec) (name : String)
    (entries : List InlineEntry) : Except String Nat × DB :=
  match (List.filterMap (fun e =>
      match validate_artwork_id lkV e.artwork_id with
      | Except.error m => some m
      | Except.ok _ => none) entries).head? with
  | some m => (Except.error m, db)
  | none =>
    match validate_places entries with
    | Except.error m => (Except.error m, db)
    | Except.ok _ =>
      let pid := db.nextProjectId
      let rows := List.map (inlinePlaceRow lkC pid) entries
      let newPlaces := List.zip (List.map (· + db.nextPlaceId) (List.range rows.length)) rows
      (Except.ok pid,
       { projects := db.projects ++ [(pid, { name := name })],
         places := db.places ++ newPlaces,
         nextProjectId := pid + 1,
         nextPlaceId := db.nextPlaceId + rows.length })

/-! Section: Layer 2: sequences of operations (for the global invariants) -/

/-- One inbound mutating request of the kinds the cap/uniqueness
invariant quantifies over.  Each operation carries the lookup behavior
in effect while it runs (the cache and the catalog may change between
requests, so nothing is assumed about it). -/
inductive Op where
  | createProject (name : String) (entries : List InlineEntry)
      (lkV lkC : Int → Option ArtRec) : Op
  | addPlace (pid : Nat) (artwork_id : Option Int) (notes : Option String)
      (lk : Int → Option ArtRec) : Op

/-- Apply one operation to the database. -/
def stepOp (db : DB) : Op → DB
  | Op.createProject name entries lkV lkC => (createProject db lkV lkC name entries).2
  | Op.addPlace pid artwork_id notes lk => (addPlace db pid lk artwork_id notes).2

/-- Run a sequence of operations from a database state. -/
def runOps (ops : List Op) (db : DB) : DB :=
  List.foldl stepOp db ops

/-! Section: Spec-side definitions and concrete fixtures -/

/-- The spec's ordered error ladder for add-place (§4.3 steps 1–5),
written from the spec's words, to be compared with `addPlace`:
`NotFound`, then `LimitExceeded`, then `MissingField`, then
`DuplicateArtwork`, then `InvalidArtwork`; `none` when no step fails. -/
def specAddPlaceError (db : DB) (pid : Nat) (lk : Int → Option ArtRec)
    (artwork_id : Option Int) : Option ApiErr :=
  if (findProject db pid).isNone then some ApiErr.notFound
  else if 10 ≤ (placesOf db pid).length then some ApiErr.limitExceeded
  else match artwork_id with
  | none => some ApiErr.missingField
  | some a =>
    if List.any (placesOf db pid) (fun r => r.2.artwork_id == a) then
      some ApiErr.duplicateArtwork
    else if (lk a).isNone then some ApiErr.invalidArtwork
    else none

/-- The cap-and-uniqueness invariant of the spec (§8): every project's
place set has at most 10 members and pairwise distinct `artwork_id`s. -/
def CapDistinctInv (db : DB) : Prop :=
  ∀ pid : Nat, (placesOf db pid).length ≤ 10 ∧
    (List.map (fun r => r.2.artwork_id) (placesOf db pid)).Nodup

/-- Auxiliary structural invariant: every stored row references a
project id below the auto-increment counter (so a freshly assigned id
owns no stray places). -/
def FreshIds (db : DB) : Prop :=
  (∀ r ∈ db.places, r.2.project_id < db.nextProjectId) ∧
  (∀ q ∈ db.projects, q.1 < db.nextProjectId)

/-- A lookup that finds no artwork (the catalog reports not-found, or
the external call failed). -/
def lkNone : Int → Option ArtRec := fun _ => none

/-- A lookup that validates every artwork id with a mock record. -/
def lkMock : Int → Option ArtRec := fun a =>
  some { id := some a, title := "Mock Title", image_id := some "img" }

/-- Fixture: a completed project (`is_completed = True`) holding one
visited place — the state in which the create-place completion bug
shows. -/
def c1Db : DB :=
  { projects := [(0, { name := "Keep", is_completed := true })],
    places := [(0, { project_id := 0, artwork_id := 1, title := "Art",
                     image_id := none, notes := "", visited := true })],
    nextProjectId := 1, nextPlaceId := 1 }

/-- Fixture: the `data` dict of a successful catalog response that
does carry an `image_id`. -/
def c3Data : Dict :=
  [("id", JVal.jint 27992),
   ("title", JVal.jstr "A Sunday on La Grande Jatte"),
   ("image_id", JVal.jstr "abc123")]

/-- The record `validate_and_fetch_artwork` builds from `c3Data`. -/
def c3Record : Dict :=
  [("id", JVal.jint 27992),
   ("title", JVal.jstr "A Sunday on La Grande Jatte")]

/-- Fixture: a database holding one project with two places, place 1
not yet visited — used to exercise update/delete behaviors. -/
def c9Db : DB :=
  { projects := [(0, { name := "Trip" })],
    places := [(0, { project_id := 0, artwork_id := 1, title := "One",
                     image_id := some "i1", notes := "", visited := true }),
               (1, { project_id := 0, artwork_id := 2, title := "Two",
                     image_id := none, notes := "old", visited := false })],
    nextProjectId := 1, nextPlaceId := 2 }

/-! Section: Claims about the artwork lookup (`core/services.py`) -/

/-- Claim C3 (code bug): at a successful (200) catalog response whose
`data` does carry an `image_id`, the lookup extracts only `id` and
`title` (defaulting `title` to `'Unknown Title'` when absent) and
caches that record for 24 hours — but the returned and cached record
has no `image_id` key at all, contrary to the claim. -/
theorem c3_lookup_record_lacks_image_id :
    validate_and_fetch_artwork (HttpOutcome.success c3Data) CacheState.empty 1000 27992 =
      (LookupOutcome.returns (some c3Record),
       [(artworkKey 27992, c3Record, 1000 + 86400)], 1)
    ∧ dictGet c3Record "id" = some (JVal.jint 27992)
    ∧ dictGet c3Record "title" = some (JVal.jstr "A Sunday on La Grande Jatte")
    ∧ dictGet c3Record "image_id" = none
    ∧ dictGet c3Data "image_id" = some (JVal.jstr "abc123")
    ∧ (validate_and_fetch_artwork (HttpOutcome.success [("id", JVal.jint 5)])
        CacheState.empty 0 5).1 =
        LookupOutcome.returns (some [("id", JVal.jint 5), ("title", JVal.jstr "Unknown Title")]) := by
  exact ⟨by decide, by decide, by decide, by decide, by decide, by decide⟩

/-- Claim C7 (code bug): the boundary is not exception-proof.  On a
cache miss, a 200 response whose JSON body is not an object — or whose
`data` member is present and not a dict — makes
`response.json().get('data', {})` (resp. `data.get('id')`) raise
`AttributeError`, which is not a `requests.RequestException` and so
escapes `validate_and_fetch_artwork` into its callers, contradicting
the claim that every outcome yields a record or the failure result.
Every other failure outcome — network failure or timeout, a body on
which `response.json()` itself raises, 404, any other status — does
return `None` with the cache untouched, and the add-place view turns a
`None` lookup result into an `InvalidArtwork` rejection. -/
theorem c7_lookup_raises_attribute_error :
    (validate_and_fetch_artwork HttpOutcome.successNonObjectBody CacheState.empty 0 27992).1 =
      LookupOutcome.raises "AttributeError"
    ∧ (validate_and_fetch_artwork HttpOutcome.successNonDictData CacheState.empty 0 27992).1 =
      LookupOutcome.raises "AttributeError"
    ∧ validate_and_fetch_artwork HttpOutcome.requestException CacheState.empty 0 27992 =
      (LookupOutcome.returns none, CacheState.empty, 1)
    ∧ validate_and_fetch_artwork HttpOutcome.successBadJson CacheState.empty 0 27992 =
      (LookupOutcome.returns none, CacheState.empty, 1)
    ∧ validate_and_fetch_artwork HttpOutcome.notFound CacheState.empty 0 27992 =
      (LookupOutcome.returns none, CacheState.empty, 1)
    ∧ validate_and_fetch_artwork (HttpOutcome.otherStatus 500) CacheState.empty 0 27992 =
      (LookupOutcome.returns none, CacheState.empty, 1)
    ∧ addPlace c9Db 0 lkNone (some 5) none = (Except.error ApiErr.invalidArtwork, c9Db) := by
  exact ⟨rfl, rfl, rfl, rfl, rfl, rfl, rfl⟩

/-- Helper: a successful `cache.get` pins down an unexpired entry, and
every read of the same key before its expiry returns the same value. -/
theorem cacheGet_some_stable (c : CacheState) (now : Nat) (k : String) (d : Dict)
    (h : cacheGet c now k = some d) :
    ∃ exp, cacheExpiry c k = some exp ∧ now < exp ∧
      ∀ now₂ : Nat, now₂ < exp → cacheGet c now₂ k = some d := by
  unfold cacheGet at h
  cases hf : List.find? (fun e => e.1 == k) c with
  | none => rw [hf] at h; exact absurd h (by simp)
  | some e =>
    obtain ⟨k', v, exp⟩ := e
    rw [hf] at h
    dsimp only at h
    by_cases hlt : now < exp
    · rw [if_pos hlt] at h
      injection h with h
      subst h
      refine ⟨exp, ?_, hlt, fun now₂ h2 => ?_⟩
      · unfold cacheExpiry; rw [hf]; rfl
      · unfold cacheGet; rw [hf]; dsimp only; rw [if_pos h2]
    · rw [if_neg hlt] at h
      exact absurd h (by simp)

/-- Helper: reading a key just written by `cache.set`, before its
expiry, returns the written value. -/
theorem cacheGet_set_same (c : CacheState) (now now₂ : Nat) (k : String) (v : Dict)
    (ttl : Nat) (h2 : now₂ < now + ttl) :
    cacheGet (cacheSet c now k v ttl) now₂ k = some v := by
  unfold cacheGet cacheSet
  rw [List.find?_cons_of_pos _ (by simp)]
  dsimp only
  rw [if_pos h2]

/-- Helper: `cache.set` records expiry `now + ttl`. -/
theorem cacheExpiry_set_same (c : CacheState) (now : Nat) (k : String) (v : Dict)
    (ttl : Nat) : cacheExpiry (cacheSet c now k v ttl) k = some (now + ttl) := by
  unfold cacheExpiry cacheSet
  rw [List.find?_cons_of_pos _ (by simp)]
  rfl

/-- Helper: when the external-call branch of the lookup returns a
record, the response was a 200, the record is cached with the 24-hour
expiry, and every re-read before that expiry returns it without a new
external call. -/
theorem c8_external_aux (fetch : HttpOutcome) (c : CacheState) (now : Nat) (aid : Int)
    (r : Dict) (c₁ : CacheState) (n₁ : Nat)
    (h : validate_and_fetch_artwork.externalCall fetch c now (artworkKey aid) =
      (LookupOutcome.returns (some r), c₁, n₁)) :
    ∃ exp, cacheExpiry c₁ (artworkKey aid) = some exp ∧ now < exp ∧
      ∀ (fetch₂ : HttpOutcome) (now₂ : Nat), now₂ < exp →
        validate_and_fetch_artwork fetch₂ c₁ now₂ aid =
          (LookupOutcome.returns (some r), c₁, 0) := by
  cases fetch with
  | success data =>
    simp only [validate_and_fetch_artwork.externalCall] at h
    rw [Prod.mk.injEq, Prod.mk.injEq] at h
    obtain ⟨hr, hc1, -⟩ := h
    injection hr with hr
    injection hr with hr
    subst hr
    subst hc1
    refine ⟨now + 86400, cacheExpiry_set_same c now _ _ _,
      Nat.lt_add_of_pos_right (by decide), fun fetch₂ now₂ h2 => ?_⟩
    unfold validate_and_fetch_artwork
    dsimp only
    rw [cacheGet_set_same c now now₂ _ _ _ h2]
    dsimp only
    rw [if_pos (by rfl)]
  | successNonObjectBody => simp [validate_and_fetch_artwork.externalCall] at h
  | successNonDictData => simp [validate_and_fetch_artwork.externalCall] at h
  | successBadJson => simp [validate_and_fetch_artwork.externalCall] at h
  | notFound => simp [validate_and_fetch_artwork.externalCall] at h
  | otherStatus code => simp [validate_and_fetch_artwork.externalCall] at h
  | requestException => simp [validate_and_fetch_artwork.externalCall] at h

/-- Claim C8 (confirmed): if a lookup succeeds (from cache or from a
fresh 200 fetch), the cache afterwards holds an unexpired entry for
the artwork's key, and every later lookup of the same `artwork_id`
before that entry's expiry — the 24-hour TTL when the entry was just
fetched — returns the identical record (hence identical `title` and
`image_id`), leaves the cache unchanged, and performs zero external
calls, whatever the external catalog would have answered. -/
theorem c8_lookup_idempotent_within_ttl (fetch₁ : HttpOutcome) (c : CacheState)
    (now₁ : Nat) (aid : Int) (r : Dict) (c₁ : CacheState) (n₁ : Nat)
    (h : validate_and_fetch_artwork fetch₁ c now₁ aid =
      (LookupOutcome.returns (some r), c₁, n₁)) :
    ∃ exp, cacheExpiry c₁ (artworkKey aid) = some exp ∧ now₁ < exp ∧
      ∀ (fetch₂ : HttpOutcome) (now₂ : Nat), now₂ < exp →
        validate_and_fetch_artwork fetch₂ c₁ now₂ aid =
          (LookupOutcome.returns (some r), c₁, 0) := by
  unfold validate_and_fetch_artwork at h
  dsimp only at h
  cases hc : cacheGet c now₁ (artworkKey aid) with
  | some cached =>
    rw [hc] at h
    dsimp only at h
    by_cases ht : dictTruthy cached = true
    · rw [if_pos ht] at h
      rw [Prod.mk.injEq, Prod.mk.injEq] at h
      obtain ⟨hr, hc1, -⟩ := h
      injection hr with hr
      injection hr with hr
      subst hr
      subst hc1
      obtain ⟨exp, hexp, hlt, hget⟩ := cacheGet_some_stable c now₁ (artworkKey aid) cached hc
      refine ⟨exp, hexp, hlt, fun fetch₂ now₂ h2 => ?_⟩
      unfold validate_and_fetch_artwork
      dsimp only
      rw [hget now₂ h2]
      dsimp only
      rw [if_pos ht]
    · rw [if_neg ht] at h
      exact c8_external_aux fetch₁ c now₁ aid r c₁ n₁ h
  | none =>
    rw [hc] at h
    exact c8_external_aux fetch₁ c now₁ aid r c₁ n₁ h

/-- Closed witness for `c8_lookup_idempotent_within_ttl`: after a
successful fetch at time 1000, a re-lookup at time 5000 — even with
the catalog now failing — returns the same record from cache with no
external call. -/
theorem c8_lookup_idempotent_within_ttl_witness :
    validate_and_fetch_artwork HttpOutcome.requestException
      [(artworkKey 27992, c3Record, 1000 + 86400)] 5000 27992 =
      (LookupOutcome.returns (some c3Record),
       [(artworkKey 27992, c3Record, 1000 + 86400)], 0) := by
  obtain ⟨exp, hexp, -, hall⟩ :=
    c8_lookup_idempotent_within_ttl (HttpOutcome.success c3Data) CacheState.empty 1000
      27992 c3Record [(artworkKey 27992, c3Record, 1000 + 86400)] 1 (by decide)
  have he : exp = 1000 + 86400 := by
    have : some exp = some (1000 + 86400) := hexp.symm.trans (by decide)
    exact Option.some.inj this
  exact hall HttpOutcome.requestException 5000 (by omega)

/-! Section: Claims about the place lifecycle (`core/views.py`) -/

/-- Claim C4 (confirmed): add-place rejects with exactly the first
applicable error of the spec's ordered ladder — `NotFound` (project
absent), then `LimitExceeded` (≥ 10 places), then `MissingField`
(no `artwork_id`), then `DuplicateArtwork`, then `InvalidArtwork`
(lookup failed) — and in every failure case the database, and hence
the project's place set, is unchanged. -/
theorem c4_add_place_error_order (db : DB) (pid : Nat) (lk : Int → Option ArtRec)
    (artwork_id : Option Int) (notes : Option String) :
    (∀ e : ApiErr, (addPlace db pid lk artwork_id notes).1 = Except.error e ↔
        specAddPlaceError db pid lk artwork_id = some e)
    ∧ (∀ e : ApiErr, (addPlace db pid lk artwork_id notes).1 = Except.error e →
        (addPlace db pid lk artwork_id notes).2 = db) := by
  unfold addPlace specAddPlaceError
  cases hp : findProject db pid with
  | none => simp
  | some p =>
    by_cases hlen : 10 ≤ (placesOf db pid).length
    · simp [hlen]
    · simp only [if_neg hlen, Option.isNone_some, Bool.false_eq_true, if_false]
      cases artwork_id with
      | none => simp
      | some a =>
        by_cases hdup : List.any (placesOf db pid) (fun r => r.2.artwork_id == a) = true
        · simp [hdup]
        · simp only [hdup, Bool.false_eq_true, if_false]
          cases hlk : lk a with
          | none => simp [hlk]
          | some rec => simp [hlk]

/-- Closed witness for `c4_add_place_error_order`: on an empty
database, adding to project 7 yields `NotFound` and leaves the
database unchanged. -/
theorem c4_add_place_error_order_witness :
    (addPlace DB.empty 7 lkMock (some 1) none).1 = Except.error ApiErr.notFound
    ∧ (addPlace DB.empty 7 lkMock (some 1) none).2 = DB.empty := by
  have h := c4_add_place_error_order DB.empty 7 lkMock (some 1) none
  exact ⟨(h.1 ApiErr.notFound).mpr (by decide),
    h.2 ApiErr.notFound ((h.1 ApiErr.notFound).mpr (by decide))⟩

/-- Claim C6 (confirmed): for an existing project, delete-project is
rejected with `Conflict` iff some owned place is visited; on that
rejection the whole database is unchanged; otherwise it succeeds, the
project is gone, its place set is empty afterwards (cascade), and
rows of other projects survive. -/
theorem c6_delete_project_conflict_iff (db : DB) (pid : Nat) (p : ProjectRow)
    (hp : findProject db pid = some p) :
    ((deleteProject db pid).1 = Except.error ApiErr.conflict ↔
      List.any (placesOf db pid) (fun r => r.2.visited) = true)
    ∧ (List.any (placesOf db pid) (fun r => r.2.visited) = true →
        (deleteProject db pid).2 = db)
    ∧ (List.any (placesOf db pid) (fun r => r.2.visited) = false →
        (deleteProject db pid).1 = Except.ok ()
        ∧ findProject (deleteProject db pid).2 pid = none
        ∧ placesOf (deleteProject db pid).2 pid = []
        ∧ (∀ q ∈ db.projects, q.1 ≠ pid → q ∈ (deleteProject db pid).2.projects)
        ∧ (∀ r ∈ db.places, r.2.project_id ≠ pid → r ∈ (deleteProject db pid).2.places)) := by
  unfold deleteProject
  rw [hp]
  dsimp only
  by_cases hv : List.any (placesOf db pid) (fun r => r.2.visited) = true
  · simp [hv]
  · rw [Bool.not_eq_true] at hv
    rw [if_neg (by simp [hv])]
    refine ⟨by simp [hv], by simp [hv], fun _ => ⟨rfl, ?_, ?_, ?_, ?_⟩⟩
    · unfold findProject
      dsimp only
      have hfind : List.find? (fun q => q.1 == pid)
          (List.filter (fun q => !(q.1 == pid)) db.projects) = none := by
        rw [List.find?_eq_none]
        intro q hq
        rcases List.mem_filter.mp hq with ⟨-, hq2⟩
        simpa using hq2
      rw [hfind]
      rfl
    · unfold placesOf
      dsimp only
      rw [List.filter_eq_nil_iff]
      intro r hr
      rcases List.mem_filter.mp hr with ⟨-, hr2⟩
      simpa using hr2
    · intro q hq hne
      exact List.mem_filter.mpr ⟨hq, by simpa using hne⟩
    · intro r hr hne
      exact List.mem_filter.mpr ⟨hr, by simpa using hne⟩

/-- Closed witness for `c6_delete_project_conflict_iff`: `c9Db`'s
project 0 owns a visited place, so deletion is rejected and the
database is unchanged. -/
theorem c6_delete_project_conflict_iff_witness :
    (deleteProject c9Db 0).1 = Except.error ApiErr.conflict ∧ (deleteProject c9Db 0).2 = c9Db := by
  have h := c6_delete_project_conflict_iff c9Db 0 { name := "Trip" } (by decide)
  exact ⟨(h.1).mpr (by decide), h.2.1 (by decide)⟩

/-- Claim C9 (confirmed): for an existing place and an arbitrary update
payload — including one that supplies `artwork_id`, `title`,
`image_id` — the update succeeds (never an error), the stored
`artwork_id`, `title`, `image_id` and owning project are unchanged,
only `notes` and `visited` take the supplied values (keeping their old
values when not supplied), and every other place row is untouched. -/
theorem c9_update_place_frame (db : DB) (pid place_id : Nat) (p : UpdatePayload)
    (pr : Nat × PlaceRow)
    (h : List.find? (fun r => r.1 == place_id) (placesOf db pid) = some pr) :
    (updatePlace db pid place_id p).1 = Except.ok (applyUpdate pr.2 p)
    ∧ (applyUpdate pr.2 p).artwork_id = pr.2.artwork_id
    ∧ (applyUpdate pr.2 p).title = pr.2.title
    ∧ (applyUpdate pr.2 p).image_id = pr.2.image_id
    ∧ (applyUpdate pr.2 p).project_id = pr.2.project_id
    ∧ (applyUpdate pr.2 p).notes = (p.notes).getD pr.2.notes
    ∧ (applyUpdate pr.2 p).visited = (p.visited).getD pr.2.visited
    ∧ ∀ r ∈ db.places, r.1 ≠ place_id → r ∈ (updatePlace db pid place_id p).2.places := by
  obtain ⟨plid, row⟩ := pr
  unfold updatePlace
  rw [h]
  dsimp only
  refine ⟨rfl, rfl, rfl, rfl, rfl, rfl, rfl, ?_⟩
  intro r hr hne
  unfold setCompleted
  dsimp only
  have hfix : (if r.1 == place_id then (r.1, applyUpdate row p) else r) = r := by
    simp [hne]
  exact hfix ▸ List.mem_map_of_mem _ hr

/-- Closed witness for `c9_update_place_frame`: patching place 1 of
`c9Db` with junk values for the read-only fields succeeds and keeps
`artwork_id`/`title`/`image_id`. -/
theorem c9_update_place_frame_witness :
    (updatePlace c9Db 0 1
        { artwork_id := some 999, title := some "HACK", image_id := some "zz",
          visited := some true }).1 =
      Except.ok { project_id := 0, artwork_id := 2, title := "Two", image_id := none,
                  notes := "old", visited := true } := by
  have h := c9_update_place_frame c9Db 0 1
    { artwork_id := some 999, title := some "HACK", image_id := some "zz",
      visited := some true }
    (1, { project_id := 0, artwork_id := 2, title := "Two", image_id := none,
          notes := "old", visited := false }) (by decide)
  exact h.1

/-- Claim C10 (confirmed): deleting a single place is never blocked by
its `visited` flag: whenever the place exists in the project — no
hypothesis at all on `visited` — the deletion succeeds and removes
exactly that row. -/
theorem c10_delete_place_unguarded (db : DB) (pid place_id : Nat) (pr : Nat × PlaceRow)
    (h : List.find? (fun r => r.1 == place_id) (placesOf db pid) = some pr) :
    (deletePlace db pid place_id).1 = Except.ok ()
    ∧ (deletePlace db pid place_id).2.places =
        List.filter (fun r => !(r.1 == place_id)) db.places := by
  unfold deletePlace
  rw [h]
  dsimp only
  exact ⟨rfl, rfl⟩

/-- Closed witness for `c10_delete_place_unguarded`: place 0 of `c9Db`
has `visited = True`, and its deletion still succeeds and removes it. -/
theorem c10_delete_place_unguarded_witness :
    (deletePlace c9Db 0 0).1 = Except.ok ()
    ∧ (deletePlace c9Db 0 0).2.places =
        [(1, { project_id := 0, artwork_id := 2, title := "Two", image_id := none,
               notes := "old", visited := false })] := by
  have h := c10_delete_place_unguarded c9Db 0 0
    (0, { project_id := 0, artwork_id := 1, title := "One", image_id := some "i1",
          notes := "", visited := true }) (by decide)
  exact ⟨h.1, by rw [h.2]; decide⟩

/-- Claim C1 (code bug): evaluating add-place at the failing input.
`c1Db` holds one completed project (flag `True`, its single place
visited).  Adding a fresh valid artwork succeeds and persists an
unvisited place, yet `PlaceViewSet.create` never recomputes
`is_completed`: the persisted flag stays `True` while the completion
evaluator over the current place set yields `False` — the flag no
longer matches the claimed invariant.  (Update and delete do recompute:
the last conjuncts show a subsequent no-op update repairs the flag.) -/
theorem c1_create_skips_completion_recompute :
    (addPlace c1Db 0 lkMock (some 2) none).1.isOk = true
    ∧ (findProject (addPlace c1Db 0 lkMock (some 2) none).2 0).map (·.is_completed) =
        some true
    ∧ evaluateCompletion
        (List.map (·.2) (placesOf (addPlace c1Db 0 lkMock (some 2) none).2 0)) = false
    ∧ (findProject
        (updatePlace (addPlace c1Db 0 lkMock (some 2) none).2 0 0 {}).2 0).map
          (·.is_completed) = some false := by
  exact ⟨by decide, by decide, by decide, by decide⟩

/-- Claim C2 (refuted as stated): a project-create request with one
inline entry whose artwork the lookup cannot validate is rejected as a
whole by the nested `PlaceSerializer.validate_artwork_id` — no project
and no places are created, contradicting the claimed permissiveness. -/
theorem c2_invalid_entry_rejects_whole_request :
    createProject DB.empty lkNone lkNone "Art Tour" [{ artwork_id := 5 }] =
      (Except.error "Artwork with ID 5 does not exist in the Art Institute API.",
       DB.empty) := by
  rfl

/-- Claim C2 amended (proved): the permissive fallback lives only in
`ProjectSerializer.create`, after validation: when every entry's
artwork validates at validation time (lookup `lkV`), the request is
accepted even if the create-time lookup (`lkC`) fails for some
entries — the project and every entry are still persisted, an entry
whose create-time lookup fails receiving the fallback title
`'Unknown Title'` (and no `image_id`). -/
theorem c2_fallback_title_after_validation (db : DB) (lkV lkC : Int → Option ArtRec)
    (name : String) (entries : List InlineEntry)
    (hv : ∀ e ∈ entries, (lkV e.artwork_id).isSome = true)
    (hlen : entries.length ≤ 10)
    (hnd : (List.map (·.artwork_id) entries).Nodup) :
    (createProject db lkV lkC name entries).1 = Except.ok db.nextProjectId
    ∧ (createProject db lkV lkC name entries).2.projects =
        db.projects ++ [(db.nextProjectId, { name := name })]
    ∧ (createProject db lkV lkC name entries).2.places =
        db.places ++
          List.zip (List.map (· + db.nextPlaceId) (List.range entries.length))
            (List.map (inlinePlaceRow lkC db.nextProjectId) entries)
    ∧ ∀ e ∈ entries, lkC e.artwork_id = none →
        (inlinePlaceRow lkC db.nextProjectId e).title = "Unknown Title" := by
  unfold createProject
  have hfm : List.filterMap (fun e =>
      match validate_artwork_id lkV e.artwork_id with
      | Except.error m => some m
      | Except.ok _ => none) entries = [] := by
    rw [List.filterMap_eq_nil_iff]
    intro e he
    have := hv e he
    unfold validate_artwork_id
    cases hlk : lkV e.artwork_id with
    | none => rw [hlk] at this; exact absurd this (by simp)
    | some rec => simp
  rw [hfm]
  have hvp : validate_places entries = Except.ok entries := by
    unfold validate_places
    rw [if_neg (by omega)]
    rw [if_neg (by rw [List.dedup_eq_self.mpr hnd]; exact fun hne => hne rfl)]
  rw [hvp]
  dsimp only
  simp only [List.length_map]
  refine ⟨rfl, rfl, rfl, fun e he hlk => ?_⟩
  unfold inlinePlaceRow
  rw [hlk]

/-- Closed witness for `c2_fallback_title_after_validation`: one entry
that validates under `lkMock` but whose create-time lookup fails is
still created, titled `'Unknown Title'`. -/
theorem c2_fallback_title_after_validation_witness :
    (createProject DB.empty lkMock lkNone "Art Tour" [{ artwork_id := 5 }]).1 =
      Except.ok 0
    ∧ (createProject DB.empty lkMock lkNone "Art Tour" [{ artwork_id := 5 }]).2.places =
        [(0, { project_id := 0, artwork_id := 5, title := "Unknown Title",
               image_id := none, notes := "", visited := false })] := by
  have h := c2_fallback_title_after_validation DB.empty lkMock lkNone "Art Tour"
    [{ artwork_id := 5 }] (by decide) (by decide) (by decide)
  exact ⟨h.1, by rw [h.2.2.1]; decide⟩

/-! Section: The global cap-and-uniqueness invariant (C5) -/

/-- Helper: a successful `findProject` exhibits a member row. -/
theorem findProject_mem (db : DB) (pid : Nat) (p : ProjectRow)
    (h : findProject db pid = some p) : (pid, p) ∈ db.projects := by
  unfold findProject at h
  cases hf : List.find? (fun q => q.1 == pid) db.projects with
  | none => rw [hf] at h; exact absurd h (by simp)
  | some q =>
    rw [hf] at h
    injection h with h
    have hmem := List.mem_of_find?_eq_some hf
    have hq := List.find?_some hf
    obtain ⟨q1, q2⟩ := q
    have h1 : q1 = pid := by simpa using hq
    subst h1
    subst h
    exact hmem

/-- Helper: the inline-place builder always attaches the new project id. -/
theorem inlinePlaceRow_project_id (lkC : Int → Option ArtRec) (pid : Nat)
    (e : InlineEntry) : (inlinePlaceRow lkC pid e).project_id = pid := by
  unfold inlinePlaceRow
  cases lkC e.artwork_id <;> rfl

/-- Helper: the inline-place builder keeps the entry's artwork id. -/
theorem inlinePlaceRow_artwork_id (lkC : Int → Option ArtRec) (pid : Nat)
    (e : InlineEntry) : (inlinePlaceRow lkC pid e).artwork_id = e.artwork_id := by
  unfold inlinePlaceRow
  cases lkC e.artwork_id <;> rfl

/-- Helper: what an accepted `validate_places` guarantees: at most 10
entries and (via the dedup-length check) pairwise distinct artwork ids. -/
theorem validate_places_ok (entries l : List InlineEntry)
    (h : validate_places entries = Except.ok l) :
    entries.length ≤ 10 ∧ (List.map (·.artwork_id) entries).Nodup := by
  unfold validate_places at h
  by_cases h1 : 10 < entries.length
  · rw [if_pos h1] at h; exact absurd h (by simp)
  · rw [if_neg h1] at h
    by_cases h2 : (List.map (·.artwork_id) entries).dedup.length ≠
        (List.map (·.artwork_id) entries).length
    · rw [if_pos h2] at h; exact absurd h (by simp)
    · push_neg at h2
      refine ⟨by omega, ?_⟩
      exact List.dedup_eq_self.mp
        (List.Sublist.eq_of_length (List.dedup_sublist _) h2)

/-- Helper: appending one place row owned by an existing project that
is below the cap and does not yet hold the row's artwork id preserves
both invariants. -/
theorem invariants_after_append_one (db db' : DB) (pid newId : Nat) (row : PlaceRow)
    (hInv : CapDistinctInv db) (hF : FreshIds db)
    (hpl : db'.places = db.places ++ [(newId, row)])
    (hpr : db'.projects = db.projects)
    (hnp : db'.nextProjectId = db.nextProjectId)
    (hrow : row.project_id = pid)
    (hex : pid < db.nextProjectId)
    (hlen : (placesOf db pid).length < 10)
    (hnotin : row.artwork_id ∉ List.map (fun r => r.2.artwork_id) (placesOf db pid)) :
    CapDistinctInv db' ∧ FreshIds db' := by
  constructor
  · intro pid'
    have hsplit : placesOf db' pid' = placesOf db pid' ++
        List.filter (fun r => r.2.project_id == pid') [(newId, row)] := by
      unfold placesOf
      rw [hpl, List.filter_append]
    by_cases hpp : pid = pid'
    · subst hpp
      have hone : List.filter (fun r => r.2.project_id == pid) [(newId, row)] =
          [(newId, row)] := by
        simp [List.filter, hrow]
      rw [hsplit, hone]
      constructor
      · rw [List.length_append]
        simp only [List.length_singleton]
        omega
      · rw [List.map_append, List.nodup_append]
        refine ⟨(hInv pid).2, by simp, ?_⟩
        intro x hx hx1
        simp only [List.map_cons, List.map_nil, List.mem_singleton] at hx1
        subst hx1
        exact hnotin hx
    · have hzero : List.filter (fun r => r.2.project_id == pid') [(newId, row)] = [] := by
        have hne : (row.project_id == pid') = false := by
          rw [hrow]
          exact beq_eq_false_iff_ne.mpr hpp
        simp [List.filter, hne]
      rw [hsplit, hzero, List.append_nil]
      exact hInv pid'
  · constructor
    · intro r hr
      rw [hpl] at hr
      rw [hnp]
      rcases List.mem_append.mp hr with hold | hnew
      · exact hF.1 r hold
      · rcases List.mem_singleton.mp hnew with rfl
        simpa [hrow] using hex
    · intro q hq
      rw [hpr] at hq
      rw [hnp]
      exact hF.2 q hq

/-- Helper: creating a fresh project (id = `nextProjectId`) together
with at most 10 place rows it owns, with pairwise distinct artwork
ids, preserves both invariants. -/
theorem invariants_after_create (db db' : DB) (newPlaces : List (Nat × PlaceRow))
    (pr : Nat × ProjectRow)
    (hInv : CapDistinctInv db) (hF : FreshIds db)
    (hpl : db'.places = db.places ++ newPlaces)
    (hpr : db'.projects = db.projects ++ [pr])
    (hnp : db'.nextProjectId = db.nextProjectId + 1)
    (hfst : pr.1 = db.nextProjectId)
    (hown : ∀ r ∈ newPlaces, r.2.project_id = db.nextProjectId)
    (hlen : newPlaces.length ≤ 10)
    (hnd : (List.map (fun r => r.2.artwork_id) newPlaces).Nodup) :
    CapDistinctInv db' ∧ FreshIds db' := by
  constructor
  · intro pid'
    have hsplit : placesOf db' pid' = placesOf db pid' ++
        List.filter (fun r => r.2.project_id == pid') newPlaces := by
      unfold placesOf
      rw [hpl, List.filter_append]
    by_cases hpp : pid' = db.nextProjectId
    · subst hpp
      have hold : placesOf db db.nextProjectId = [] := by
        unfold placesOf
        rw [List.filter_eq_nil_iff]
        intro r hr
        have := hF.1 r hr
        simp only [beq_iff_eq]
        omega
      have hnew : List.filter (fun r => r.2.project_id == db.nextProjectId) newPlaces =
          newPlaces := by
        rw [List.filter_eq_self]
        intro r hr
        simpa using hown r hr
      rw [hsplit, hold, hnew, List.nil_append]
      exact ⟨hlen, hnd⟩
    · have hnew : List.filter (fun r => r.2.project_id == pid') newPlaces = [] := by
        rw [List.filter_eq_nil_iff]
        intro r hr
        have := hown r hr
        simp only [beq_iff_eq]
        omega
      rw [hsplit, hnew, List.append_nil]
      exact hInv pid'
  · constructor
    · intro r hr
      rw [hpl] at hr
      rw [hnp]
      rcases List.mem_append.mp hr with hold | hnew
      · have := hF.1 r hold
        omega
      · rw [hown r hnew]
        omega
    · intro q hq
      rw [hpr] at hq
      rw [hnp]
      rcases List.mem_append.mp hq with hold | hnew
      · have := hF.2 q hold
        omega
      · rcases List.mem_singleton.mp hnew with rfl
        omega

/-- Helper: `addPlace` preserves the cap-and-uniqueness and freshness
invariants (its guards supply exactly the side conditions). -/
theorem addPlace_preserves (db : DB) (pid : Nat) (lk : Int → Option ArtRec)
    (aid : Option Int) (notes : Option String)
    (hInv : CapDistinctInv db) (hF : FreshIds db) :
    CapDistinctInv (addPlace db pid lk aid notes).2 ∧
      FreshIds (addPlace db pid lk aid notes).2 := by
  unfold addPlace
  cases hp : findProject db pid with
  | none => exact ⟨hInv, hF⟩
  | some p =>
    dsimp only
    by_cases hlen : 10 ≤ (placesOf db pid).length
    · rw [if_pos hlen]; exact ⟨hInv, hF⟩
    · rw [if_neg hlen]
      cases aid with
      | none => exact ⟨hInv, hF⟩
      | some a =>
        dsimp only
        by_cases hdup : List.any (placesOf db pid) (fun r => r.2.artwork_id == a) = true
        · rw [if_pos hdup]; exact ⟨hInv, hF⟩
        · rw [if_neg hdup]
          cases hlk : lk a with
          | none => exact ⟨hInv, hF⟩
          | some rec =>
            dsimp only
            rw [Bool.not_eq_true] at hdup
            refine invariants_after_append_one db _ pid db.nextPlaceId _ hInv hF
              rfl rfl rfl rfl ?_ ?_ ?_
            · exact hF.2 (pid, p) (findProject_mem db pid p hp)
            · omega
            · intro hx
              rcases List.mem_map.mp hx with ⟨r, hr, hra⟩
              have hfalse : (r.2.artwork_id == a) = false := by
                rw [List.any_eq_false] at hdup
                simpa using hdup r hr
              rw [hra] at hfalse
              simp at hfalse

/-- Helper: `createProject` preserves the cap-and-uniqueness and
freshness invariants. -/
theorem createProject_preserves (db : DB) (lkV lkC : Int → Option ArtRec)
    (name : String) (entries : List InlineEntry)
    (hInv : CapDistinctInv db) (hF : FreshIds db) :
    CapDistinctInv (createProject db lkV lkC name entries).2 ∧
      FreshIds (createProject db lkV lkC name entries).2 := by
  unfold createProject
  cases hh : (List.filterMap (fun e =>
      match validate_artwork_id lkV e.artwork_id with
      | Except.error m => some m
      | Except.ok _ => none) entries).head? with
  | some m => exact ⟨hInv, hF⟩
  | none =>
    dsimp only
    cases hvp : validate_places entries with
    | error m => exact ⟨hInv, hF⟩
    | ok l =>
      dsimp only
      obtain ⟨hlen10, hnd⟩ := validate_places_ok entries l hvp
      have hrows : (List.map (inlinePlaceRow lkC db.nextProjectId) entries).length =
          entries.length := List.length_map _ _
      have hids : (List.map (· + db.nextPlaceId)
          (List.range (List.map (inlinePlaceRow lkC db.nextProjectId) entries).length)).length =
          entries.length := by
        rw [List.length_map, List.length_range, hrows]
      refine invariants_after_create db _ _ (db.nextProjectId, { name := name })
        hInv hF rfl rfl rfl rfl ?_ ?_ ?_
      · intro r hr
        obtain ⟨i, pr⟩ := r
        have hpr := (List.of_mem_zip hr).2
        rcases List.mem_map.mp hpr with ⟨e, he, hee⟩
        rw [← hee]
        exact inlinePlaceRow_project_id lkC db.nextProjectId e
      · rw [List.length_zip, hids, hrows]
        simpa using hlen10
      · have hsnd : List.map Prod.snd
            (List.zip (List.map (· + db.nextPlaceId)
              (List.range (List.map (inlinePlaceRow lkC db.nextProjectId) entries).length))
              (List.map (inlinePlaceRow lkC db.nextProjectId) entries)) =
            List.map (inlinePlaceRow lkC db.nextProjectId) entries := by
          apply List.map_snd_zip
          rw [hids, hrows]
        have hcomp : List.map (fun r => r.2.artwork_id)
            (List.zip (List.map (· + db.nextPlaceId)
              (List.range (List.map (inlinePlaceRow lkC db.nextProjectId) entries).length))
              (List.map (inlinePlaceRow lkC db.nextProjectId) entries)) =
            List.map (fun pr => pr.artwork_id)
              (List.map Prod.snd (List.zip (List.map (· + db.nextPlaceId)
                (List.range (List.map (inlinePlaceRow lkC db.nextProjectId) entries).length))
                (List.map (inlinePlaceRow lkC db.nextProjectId) entries))) := by
          rw [List.map_map]
          rfl
        rw [hcomp, hsnd, List.map_map]
        have hartw : List.map ((fun pr => pr.artwork_id) ∘
            inlinePlaceRow lkC db.nextProjectId) entries =
            List.map (·.artwork_id) entries :=
          List.map_congr_left (fun e _ => inlinePlaceRow_artwork_id lkC db.nextProjectId e)
        rw [hartw]
        exact hnd

/-- Helper: every operation preserves both invariants along a run. -/
theorem runOps_preserves (ops : List Op) (db : DB)
    (h : CapDistinctInv db ∧ FreshIds db) :
    CapDistinctInv (runOps ops db) ∧ FreshIds (runOps ops db) := by
  induction ops generalizing db with
  | nil => exact h
  | cons op ops ih =>
    apply ih
    cases op with
    | createProject n es lkV lkC => exact createProject_preserves db lkV lkC n es h.1 h.2
    | addPlace pid aid ns lk => exact addPlace_preserves db pid lk aid ns h.1 h.2

/-- Claim C5 (confirmed): after any sequence of project-creation and
add-place operations from an empty database — each operation free to
see any lookup behavior — every project holds at most 10 places and
its places' `artwork_id`s are pairwise distinct. -/
theorem c5_cap_and_distinct_invariant (ops : List Op) :
    CapDistinctInv (runOps ops DB.empty) := by
  refine (runOps_preserves ops DB.empty ⟨?_, ?_, ?_⟩).1
  · intro pid
    exact ⟨by simp [placesOf, DB.empty], by simp [placesOf, DB.empty]⟩
  · intro r hr
    exact absurd hr (by simp [DB.empty])
  · intro q hq
    exact absurd hq (by simp [DB.empty])
